import Mathlib

/-!
Verification of `pipeline/validator.py` (pbac_rag_2).

Shallow embedding of the validator module: JSON-shaped values are the
inductive `JValue`; Python dicts are association lists with first-match
lookup and in-place update; machine-level 32-bit arithmetic in the SHA-256
model is `Nat` with explicit `% 2 ^ 32`.  Each definition carries a comment
pointing at the source lines it embeds.
-/

namespace Validator

/-- A JSON-shaped Python value: the tree of mappings, ordered sequences,
strings, numbers, booleans and null that `json.load` produces.  Numbers are
modelled as integers (no claim depends on float semantics). -/
inductive JValue where
  | null
  | bool (b : Bool)
  | num (n : Int)
  | str (s : String)
  | arr (xs : List JValue)
  | obj (fields : List (String × JValue))

/-- Python truthiness (`bool(v)`) on JSON-shaped values: `None`, `False`,
`0`, `""`, `[]` and `{}` are falsy, everything else truthy. -/
def truthy : JValue → Bool
  | .null => false
  | .bool b => b
  | .num n => n != 0
  | .str s => s != ""
  | .arr xs => !xs.isEmpty
  | .obj fields => !fields.isEmpty

/-- Truthiness of a `dict.get` result: a missing key yields `None`, which is
falsy. -/
def optTruthy : Option JValue → Bool
  | none => false
  | some v => truthy v

/-- Python `dict.get(k)`: first (unique, for genuine dicts) binding of `k`. -/
def getKey : List (String × JValue) → String → Option JValue
  | [], _ => none
  | (k', v') :: rest, k => if k' == k then some v' else getKey rest k

/-- Python `d[k] = v`: update the existing binding in place (keeping its
position) or append a new binding at the end, exactly as dict item
assignment behaves with respect to insertion order. -/
def setKey : List (String × JValue) → String → JValue → List (String × JValue)
  | [], k, v => [(k, v)]
  | (k', v') :: rest, k, v =>
      if k' == k then (k, v) :: rest else (k', v') :: setKey rest k v

/-! ## Identity Assignment: `generate_doc_id` (validator.py lines 29-33)

`os.path.basename` and `hashlib.sha256(...).hexdigest()` are Python standard
library calls; both are embedded in full below (POSIX basename; real
SHA-256 over the UTF-8 bytes, with 32-bit words as `Nat` mod `2 ^ 32`). -/

/-- `os.path.basename` on POSIX: everything after the last slash
(`p[p.rfind('/') + 1:]`), computed as the longest slash-free suffix. -/
def basename (p : String) : String :=
  ⟨(p.data.reverse.takeWhile fun c => c != '/').reverse⟩

/-- UTF-8 encoding of one character (`str.encode('utf-8')`, per code point). -/
def utf8Char (c : Char) : List Nat :=
  let n := c.toNat
  if n < 0x80 then [n]
  else if n < 0x800 then [0xc0 + n / 64, 0x80 + n % 64]
  else if n < 0x10000 then [0xe0 + n / 4096, 0x80 + n / 64 % 64, 0x80 + n % 64]
  else [0xf0 + n / 262144, 0x80 + n / 4096 % 64, 0x80 + n / 64 % 64, 0x80 + n % 64]

/-- UTF-8 bytes of a string (`str.encode('utf-8')`). -/
def strBytes (s : String) : List Nat :=
  (s.data.map utf8Char).flatten

/-- `2 ^ 32`, the modulus of SHA-256 word arithmetic. -/
def M32 : Nat := 4294967296

/-- 32-bit right rotation. -/
def rotr32 (x n : Nat) : Nat := ((x >>> n) ||| (x <<< (32 - n))) % M32

/-- The 64 SHA-256 round constants (FIPS 180-4), in decimal. -/
def sha_k : List Nat :=
  [1116352408, 1899447441, 3049323471, 3921009573, 961987163,
   1508970993, 2453635748, 2870763221, 3624381080, 310598401,
   607225278, 1426881987, 1925078388, 2162078206, 2614888103,
   3248222580, 3835390401, 4022224774, 264347078, 604807628,
   770255983, 1249150122, 1555081692, 1996064986, 2554220882,
   2821834349, 2952996808, 3210313671, 3336571891, 3584528711,
   113926993, 338241895, 666307205, 773529912, 1294757372,
   1396182291, 1695183700, 1986661051, 2177026350, 2456956037,
   2730485921, 2820302411, 3259730800, 3345764771, 3516065817,
   3600352804, 4094571909, 275423344, 430227734, 506948616,
   659060556, 883997877, 958139571, 1322822218, 1537002063,
   1747873779, 1955562222, 2024104815, 2227730452, 2361852424,
   2428436474, 2756734187, 3204031479, 3329325298]

/-- The eight 32-bit working registers of the SHA-256 compression function. -/
structure Hash8 where
  a : Nat
  b : Nat
  c : Nat
  d : Nat
  e : Nat
  f : Nat
  g : Nat
  h : Nat

/-- SHA-256 initial hash value (FIPS 180-4). -/
def sha_h0 : Hash8 :=
  ⟨1779033703, 3144134277, 1013904242, 2773480762,
   1359893119, 2600822924, 528734635, 1541459225⟩

/-- Big-endian byte decomposition of `x` into `n` bytes. -/
def bytesBE (n x : Nat) : List Nat :=
  (List.range n).map fun i => x >>> (8 * (n - 1 - i)) % 256

/-- SHA-256 padding: append `0x80`, zeros to 56 mod 64, then the 64-bit
big-endian bit length. -/
def sha_pad (msg : List Nat) : List Nat :=
  msg ++ [0x80] ++ List.replicate ((119 - msg.length % 64) % 64) 0 ++ bytesBE 8 (msg.length * 8)

/-- Group bytes into big-endian 32-bit words. -/
def toWordsBE : List Nat → List Nat
  | b0 :: b1 :: b2 :: b3 :: rest =>
      ((b0 <<< 24) ||| (b1 <<< 16) ||| (b2 <<< 8) ||| b3) :: toWordsBE rest
  | _ => []

/-- SHA-256 small sigma 0. -/
def sha_s0 (x : Nat) : Nat := rotr32 x 7 ^^^ rotr32 x 18 ^^^ (x >>> 3)

/-- SHA-256 small sigma 1. -/
def sha_s1 (x : Nat) : Nat := rotr32 x 17 ^^^ rotr32 x 19 ^^^ (x >>> 10)

/-- Extend the 16-word block by `n` further message-schedule words. -/
def scheduleFrom (acc : List Nat) : Nat → List Nat
  | 0 => acc
  | n + 1 =>
      let len := acc.length
      let w := (sha_s1 (acc.getD (len - 2) 0) + acc.getD (len - 7) 0 +
                sha_s0 (acc.getD (len - 15) 0) + acc.getD (len - 16) 0) % M32
      scheduleFrom (acc ++ [w]) n

/-- The 64 SHA-256 compression rounds, consuming `(k, w)` pairs. -/
def compressWords : List (Nat × Nat) → Hash8 → Hash8
  | [], st => st
  | (k, w) :: rest, ⟨a, b, c, d, e, f, g, h⟩ =>
      let s1 := rotr32 e 6 ^^^ rotr32 e 11 ^^^ rotr32 e 25
      let ch := (e &&& f) ^^^ ((e ^^^ 0xffffffff) &&& g)
      let t1 := (h + s1 + ch + k + w) % M32
      let s0 := rotr32 a 2 ^^^ rotr32 a 13 ^^^ rotr32 a 22
      let maj := (a &&& b) ^^^ (a &&& c) ^^^ (b &&& c)
      let t2 := (s0 + maj) % M32
      compressWords rest ⟨(t1 + t2) % M32, a, b, c, (d + t1) % M32, e, f, g⟩

/-- Process one 16-word block. -/
def processBlock (st : Hash8) (block : List Nat) : Hash8 :=
  let ws := scheduleFrom block 48
  let r := compressWords (sha_k.zip ws) st
  ⟨(st.a + r.a) % M32, (st.b + r.b) % M32, (st.c + r.c) % M32, (st.d + r.d) % M32,
   (st.e + r.e) % M32, (st.f + r.f) % M32, (st.g + r.g) % M32, (st.h + r.h) % M32⟩

/-- Fold the compression function over the padded message, 16 words at a
time. -/
def processChunks (st : Hash8) : List Nat → Hash8
  | w0 :: w1 :: w2 :: w3 :: w4 :: w5 :: w6 :: w7 ::
    w8 :: w9 :: w10 :: w11 :: w12 :: w13 :: w14 :: w15 :: rest =>
      processChunks
        (processBlock st [w0, w1, w2, w3, w4, w5, w6, w7, w8, w9, w10, w11, w12, w13, w14, w15])
        rest
  | _ => st

/-- Lower-case hexadecimal digit, as produced by `hexdigest()`. -/
def hexChar (n : Nat) : Char :=
  match n with
  | 0 => '0' | 1 => '1' | 2 => '2' | 3 => '3' | 4 => '4' | 5 => '5' | 6 => '6' | 7 => '7'
  | 8 => '8' | 9 => '9' | 10 => 'a' | 11 => 'b' | 12 => 'c' | 13 => 'd' | 14 => 'e' | _ => 'f'

/-- Eight-character lower-case hex rendering of a 32-bit word. -/
def toHex8 (x : Nat) : String :=
  ⟨[hexChar (x >>> 28 % 16), hexChar (x >>> 24 % 16), hexChar (x >>> 20 % 16),
    hexChar (x >>> 16 % 16), hexChar (x >>> 12 % 16), hexChar (x >>> 8 % 16),
    hexChar (x >>> 4 % 16), hexChar (x % 16)]⟩

/-- `hashlib.sha256(bytes).hexdigest()`: the 64-character lower-case hex
digest. -/
def sha256_hexdigest (msg : List Nat) : String :=
  let r := processChunks sha_h0 (toWordsBE (sha_pad msg))
  toHex8 r.a ++ toHex8 r.b ++ toHex8 r.c ++ toHex8 r.d ++
  toHex8 r.e ++ toHex8 r.f ++ toHex8 r.g ++ toHex8 r.h

/-- validator.py lines 29-33: `generate_doc_id` hashes the UTF-8 bytes of
the base name of the filename. -/
def generate_doc_id (filename : String) : String :=
  sha256_hexdigest (strBytes (basename filename))

/-! ## Structural Cleaner: `trim_all_strings` (validator.py lines 35-43) -/

/-- The characters Python `str.strip()` removes (ASCII whitespace; the model
restricts `str.isspace` to its ASCII fragment, which is all the claims
exercise). -/
def py_isspace (c : Char) : Bool :=
  [' ', '\t', '\n', '\r', '\x0b', '\x0c'].contains c

/-- Python `str.strip()`: drop whitespace from the front, then from the
back. -/
def py_strip (s : String) : String :=
  ⟨(s.data.dropWhile py_isspace).rdropWhile py_isspace⟩

mutual

/-- validator.py lines 35-43: recursively rebuild dicts and lists, stripping
every string leaf, returning all other leaves unchanged. -/
def trim_all_strings : JValue → JValue
  | .obj fields => .obj (trim_obj fields)
  | .arr xs => .arr (trim_list xs)
  | .str s => .str (py_strip s)
  | v => v

/-- The list comprehension `[trim_all_strings(elem) for elem in data]`. -/
def trim_list : List JValue → List JValue
  | [] => []
  | x :: xs => trim_all_strings x :: trim_list xs

/-- The dict comprehension `{k: trim_all_strings(v) for k, v in data.items()}`:
keys are kept, values are cleaned recursively. -/
def trim_obj : List (String × JValue) → List (String × JValue)
  | [] => []
  | (k, v) :: rest => (k, trim_all_strings v) :: trim_obj rest

end

/-! ## Date parsing model (third-party `dateutil.parser.parse`) -/

/-- Month names recognised by the model (dateutil accepts full English
month names and their usual abbreviations). -/
def monthNames : List (String × Nat) :=
  [("january", 1), ("february", 2), ("march", 3), ("april", 4), ("may", 5), ("june", 6),
   ("july", 7), ("august", 8), ("september", 9), ("october", 10), ("november", 11),
   ("december", 12), ("jan", 1), ("feb", 2), ("mar", 3), ("apr", 4), ("jun", 6), ("jul", 7),
   ("aug", 8), ("sep", 9), ("sept", 9), ("oct", 10), ("nov", 11), ("dec", 12)]

/-- ASCII lower-casing of one character. -/
def lowerChar (c : Char) : Char :=
  if 'A' ≤ c && c ≤ 'Z' then Char.ofNat (c.toNat + 32) else c

/-- ASCII lower-casing of a string. -/
def lowerStr (s : String) : String := ⟨s.data.map lowerChar⟩

/-- Split a character list at separators (keeping empty chunks). -/
def splitChars (p : Char → Bool) : List Char → List (List Char)
  | [] => [[]]
  | c :: rest =>
      let r := splitChars p rest
      if p c then [] :: r
      else
        match r with
        | [] => [[c]]
        | t :: ts => (c :: t) :: ts

/-- Split a string at separators, drop empty chunks. -/
def tokensOf (p : Char → Bool) (s : String) : List String :=
  ((splitChars p s.data).map fun l => (⟨l⟩ : String)).filter fun t => t != ""

/-- Parse a non-empty all-digit token as a decimal number. -/
def digitsToNat : List Char → Option Nat
  | [] => none
  | l =>
      if l.all Char.isDigit then
        some (l.foldl (fun a c => a * 10 + (c.toNat - 48)) 0)
      else none

/-- Parse a string as a decimal number. -/
def strToNat (s : String) : Option Nat := digitsToNat s.data

/-- Look a token up as a month name, case-insensitively. -/
def monthFromName (s : String) : Option Nat :=
  (monthNames.find? fun kv => kv.1 == lowerStr s).map (·.2)

/-- Accept a year/month/day triple only within plausible calendar ranges. -/
def mkYMD (y m d : Nat) : Option (Nat × Nat × Nat) :=
  if 1 ≤ m && m ≤ 12 && 1 ≤ d && d ≤ 31 && 1 ≤ y && y ≤ 9999 then some (y, m, d) else none

/-- Model of the third-party `dateutil.parser.parse` (validator.py line 81):
lenient parsing of common complete date formats.  The model recognises
`"Month D, YYYY"`, `"D Month YYYY"` and `"YYYY-MM-DD"` shapes (the forms the
specification exercises); any other string is a parse failure
(`ParserError`), and any non-string argument is a `TypeError` — both
exceptions are caught by the `except` clause on line 83, so both are
modelled as `none`. -/
def parse_date : JValue → Option (Nat × Nat × Nat)
  | .str s =>
      match tokensOf (fun c => c == ' ' || c == ',') s with
      | [t1, t2, t3] =>
          (match monthFromName t1, strToNat t2, strToNat t3 with
           | some m, some d, some y => mkYMD y m d
           | _, _, _ =>
               match strToNat t1, monthFromName t2, strToNat t3 with
               | some d, some m, some y => mkYMD y m d
               | _, _, _ => none)
      | [t1] =>
          (match tokensOf (fun c => c == '-') t1 with
           | [ys, ms, ds] =>
               (match strToNat ys, strToNat ms, strToNat ds with
                | some y, some m, some d => mkYMD y m d
                | _, _, _ => none)
           | _ => none)
      | _ => none
  | _ => none

/-- Left-pad a decimal rendering with zeros to the given width. -/
def padNum (width n : Nat) : String :=
  ⟨List.replicate (width - (toString n).length) '0'⟩ ++ toString n

/-- `parsed_date.strftime("%Y-%m-%d")` (validator.py line 82). -/
def formatDate : Nat × Nat × Nat → String
  | (y, m, d) => padNum 4 y ++ "-" ++ padNum 2 m ++ "-" ++ padNum 2 d

mutual

/-- Python `repr` of a JSON-shaped value (used by f-string interpolation for
non-string values inside containers).  The model covers values whose strings
contain no quote characters, which is all the messages exercise. -/
def pyRepr : JValue → String
  | .null => "None"
  | .bool true => "True"
  | .bool false => "False"
  | .num n => toString n
  | .str s => "\x27" ++ s ++ "\x27"
  | .arr xs => "[" ++ pyReprItems xs ++ "]"
  | .obj fields => "\x7b" ++ pyReprFields fields ++ "\x7d"

/-- Comma-separated reprs of list elements. -/
def pyReprItems : List JValue → String
  | [] => ""
  | [x] => pyRepr x
  | x :: y :: rest => pyRepr x ++ ", " ++ pyReprItems (y :: rest)

/-- Comma-separated `key: value` reprs of dict entries. -/
def pyReprFields : List (String × JValue) → String
  | [] => ""
  | [(k, v)] => "\x27" ++ k ++ "\x27: " ++ pyRepr v
  | (k, v) :: kv :: rest => "\x27" ++ k ++ "\x27: " ++ pyRepr v ++ ", " ++ pyReprFields (kv :: rest)

end

/-- Python `str(v)`, as f-string interpolation applies it: strings verbatim,
other values via `repr`. -/
def pyStr : JValue → String
  | .str s => s
  | v => pyRepr v

/-! ## The pipeline: `validate_and_clean_json` (validator.py lines 45-106) -/

/-- The validation report of validator.py line 58: status, warnings,
errors. -/
structure Report where
  status : String
  warnings : List String
  errors : List String
deriving DecidableEq

/-- validator.py line 25: the mandatory top-level fields. -/
def REQUIRED_FIELDS : List String := ["title", "sections"]

/-- validator.py lines 69-74: scan the required fields in order and return
the first one whose value is falsy (`if not cleaned_data.get(field)`), if
any. -/
def check_required : List String → List (String × JValue) → Option String
  | [], _ => none
  | f :: rest, cd => if optTruthy (getKey cd f) then check_required rest cd else some f

/-- validator.py lines 77-85: if the (cleaned) `pbac_meeting_date` value is
truthy, try to parse it; on success rewrite it to `YYYY-MM-DD`, on failure
(`ParserError` on an unparseable string, `TypeError` on a non-string) record
a warning and set the field to null.  Returns the updated dict and the
warnings this stage appends. -/
def normalize_date (cd : List (String × JValue)) : List (String × JValue) × List String :=
  match getKey cd "pbac_meeting_date" with
  | some date_str =>
      if truthy date_str then
        match parse_date date_str with
        | some ymd => (setKey cd "pbac_meeting_date" (.str (formatDate ymd)), [])
        | none =>
            (setKey cd "pbac_meeting_date" .null,
             ["Could not parse date: \x27" ++ pyStr date_str ++ "\x27. Setting to null."])
      else (cd, [])
  | none => (cd, [])

/-- validator.py lines 91-96: the `enumerate(sections)` loop.  A non-dict
element gets a per-index warning and is skipped (`continue`); a dict without
a truthy `heading` gets a per-index warning. -/
def check_sections_items (i : Nat) : List JValue → List String
  | [] => []
  | s :: rest =>
      match s with
      | .obj fields =>
          if optTruthy (getKey fields "heading") then check_sections_items (i + 1) rest
          else ("Section at index " ++ toString i ++ " is missing a \x27heading\x27.") ::
               check_sections_items (i + 1) rest
      | _ =>
          ("Item at index " ++ toString i ++ " in \x27sections\x27 is not a valid object.") ::
          check_sections_items (i + 1) rest

/-- validator.py lines 88-99: the sections stage, returning the warnings and
errors it appends.  The `isinstance(..., list)` test selects the list
branch; the `none` branch is unreachable here (`sections` passed the
required-field gate, see `sections_present_after_date` below; in Python a
missing key would raise `KeyError` on the `cleaned_data["sections"]`
subscript). -/
def check_sections_value : Option JValue → List String × List String
  | some (.arr xs) =>
      ((if xs.isEmpty then ["\x27sections\x27 array is empty."] else []) ++
       check_sections_items 0 xs, [])
  | _ => ([], ["\x27sections\x27 field is not a list."])

/-- validator.py lines 97-104: the status bookkeeping.  `status` starts as
`"success"` (line 58); the sections branch that appends the not-a-list error
also sets it to `"error"` (lines 98-99); lines 103-104 then upgrade a
still-`"success"` status to `"success_with_warnings"` when warnings were
recorded. -/
def assemble_status (warnings errors : List String) : String :=
  let status := if errors.isEmpty then "success" else "error"
  if !warnings.isEmpty && status == "success" then "success_with_warnings" else status

/-- validator.py lines 45-106: the full pipeline on a dict (`data` has
Python type `Dict[str, Any]`).  The deep copy of line 60 is value copying;
line 63 assigns `doc_id`; line 66 rebinds `cleaned_data` to the trimmed
copy; lines 69-74 return early on the first falsy required field; lines
77-85 normalize the date; lines 88-99 check the sections; lines 103-104
settle the final status. -/
def validate_and_clean_json (data : List (String × JValue)) (source_filename : String) :
    JValue × Report :=
  let cleaned_data := trim_obj (setKey data "doc_id" (.str (generate_doc_id source_filename)))
  match check_required REQUIRED_FIELDS cleaned_data with
  | some field =>
      (.obj cleaned_data,
       ⟨"error", [], ["Missing or empty required field: \x27" ++ field ++ "\x27"]⟩)
  | none =>
      let dres := normalize_date cleaned_data
      let sres := check_sections_value (getKey dres.1 "sections")
      let warnings := dres.2 ++ sres.1
      (.obj dres.1, ⟨assemble_status warnings sres.2, warnings, sres.2⟩)

/-- Dynamic behaviour of `validate_and_clean_json` when called on an
arbitrary JSON root, as the `__main__` block can (`json.load` may return any
JSON value).  On a non-dict root the item assignment
`cleaned_data["doc_id"] = ...` on line 63 raises `TypeError` before any
report is built; the exception is modelled as `.error`. -/
def validate_and_clean_json_dyn (data : JValue) (source_filename : String) :
    Except String (JValue × Report) :=
  match data with
  | .obj fields => .ok (validate_and_clean_json fields source_filename)
  | _ => .error "TypeError: item assignment on a non-mapping root (line 63)"

/-- Lower-case hexadecimal characters, as `hexdigest()` emits. -/
def isHexLower (c : Char) : Bool := ('0' ≤ c && c ≤ '9') || ('a' ≤ c && c ≤ 'f')

/-- The condition the claims name for a missing required field (spec §4.3):
the value is absent, null, or empty (empty string, sequence or mapping). -/
def absentNullOrEmpty : Option JValue → Bool
  | none => true
  | some .null => true
  | some (.str s) => s == ""
  | some (.arr xs) => xs.isEmpty
  | some (.obj fs) => fs.isEmpty
  | some (.bool _) => false
  | some (.num _) => false

/-! ## Heap model (for the mutation-frame property of lines 58-66, 82-85)

The pure pipeline above identifies values; Python mutation is modelled here
explicitly: objects live at addresses, `deepcopy` (line 60) and the rebind
to `trim_all_strings(...)` (line 66) build fresh object graphs, and the two
dict item assignments (line 63 `doc_id`, lines 82/85 `pbac_meeting_date`)
are in-place writes.  Python shares immutable leaves under `deepcopy`;
allocating them fresh is observationally equivalent for mutation framing,
since immutable objects admit no writes. -/

/-- A Python heap object: containers hold addresses of their children. -/
inductive HObj where
  | hdict (fields : List (String × Nat))
  | hlist (elems : List Nat)
  | hstr (s : String)
  | hnum (n : Int)
  | hbool (b : Bool)
  | hnull
deriving DecidableEq

/-- A heap: entries, newest first, and the next fresh address. -/
structure Heap where
  mem : List (Nat × HObj)
  next : Nat

/-- First-match address lookup. -/
def memLookup : List (Nat × HObj) → Nat → Option HObj
  | [], _ => none
  | (b, o) :: rest, a => if b == a then some o else memLookup rest a

/-- Dereference an address. -/
def hlookup (h : Heap) (a : Nat) : Option HObj := memLookup h.mem a

/-- Allocate a fresh object, returning its address. -/
def halloc (h : Heap) (o : HObj) : Heap × Nat :=
  (⟨(h.next, o) :: h.mem, h.next + 1⟩, h.next)

/-- Overwrite the object at an existing address (in-place mutation). -/
def hwrite (h : Heap) (a : Nat) (o : HObj) : Heap := ⟨(a, o) :: h.mem, h.next⟩

/-- `d[k] = v` on the address level, as dict item assignment behaves. -/
def setKeyAddr : List (String × Nat) → String → Nat → List (String × Nat)
  | [], k, v => [(k, v)]
  | (k', v') :: rest, k, v =>
      if k' == k then (k, v) :: rest else (k', v') :: setKeyAddr rest k v

/-- In-place dict item assignment `obj_at_a[k] = va` (lines 63 and 82/85). -/
def hwriteDict (h : Heap) (a : Nat) (k : String) (va : Nat) : Heap :=
  match hlookup h a with
  | some (.hdict fields) => hwrite h a (.hdict (setKeyAddr fields k va))
  | _ => h

mutual

/-- Store a value as a fresh object graph (`deepcopy`, and the structures
`trim_all_strings` rebuilds). -/
def storeJ : Heap → JValue → Heap × Nat
  | h, .null => halloc h .hnull
  | h, .bool b => halloc h (.hbool b)
  | h, .num n => halloc h (.hnum n)
  | h, .str s => halloc h (.hstr s)
  | h, .arr xs =>
      let r := storeJList h xs
      halloc r.1 (.hlist r.2)
  | h, .obj fs =>
      let r := storeJObj h fs
      halloc r.1 (.hdict r.2)

/-- Store the elements of a list, left to right. -/
def storeJList : Heap → List JValue → Heap × List Nat
  | h, [] => (h, [])
  | h, x :: xs =>
      let r := storeJ h x
      let r2 := storeJList r.1 xs
      (r2.1, r.2 :: r2.2)

/-- Store the values of a dict, in insertion order. -/
def storeJObj : Heap → List (String × JValue) → Heap × List (String × Nat)
  | h, [] => (h, [])
  | h, (k, v) :: rest =>
      let r := storeJ h v
      let r2 := storeJObj r.1 rest
      (r2.1, (k, r.2) :: r2.2)

end

/-- Read back a list of addresses with a given element reader. -/
def readList (f : Nat → Option JValue) : List Nat → Option (List JValue)
  | [] => some []
  | a :: as =>
      match f a, readList f as with
      | some v, some vs => some (v :: vs)
      | _, _ => none

/-- Read back dict fields with a given element reader. -/
def readObj (f : Nat → Option JValue) : List (String × Nat) → Option (List (String × JValue))
  | [] => some []
  | (k, a) :: rest =>
      match f a, readObj f rest with
      | some v, some vs => some ((k, v) :: vs)
      | _, _ => none

/-- Read the value rooted at an address (fuel-bounded in the nesting depth,
so that reading is total even on ill-formed cyclic heaps). -/
def readJ : Nat → Heap → Nat → Option JValue
  | 0, _, _ => none
  | fuel + 1, h, a =>
      match hlookup h a with
      | some .hnull => some .null
      | some (.hbool b) => some (.bool b)
      | some (.hnum n) => some (.num n)
      | some (.hstr s) => some (.str s)
      | some (.hlist as) => (readList (readJ fuel h) as).map .arr
      | some (.hdict fs) => (readObj (readJ fuel h) fs).map .obj
      | none => none

/-- The addresses an object refers to. -/
def addrsOf : HObj → List Nat
  | .hdict fs => fs.map (·.2)
  | .hlist as => as
  | _ => []

/-- A well-formed heap: every entry lives below `next` and refers only
below `next`. -/
def Heap.closed (h : Heap) : Prop :=
  ∀ e ∈ h.mem, e.1 < h.next ∧ ∀ a ∈ addrsOf e.2, a < h.next

/-- validator.py lines 58-106 with the mutations explicit: deep copy of the
input (line 60), in-place `doc_id` write on the copy (line 63), rebind to
the freshly built trimmed structure (line 66), and — when the date stage
fires — the in-place `pbac_meeting_date` write on it (lines 82/85).  The
required-field check, date parsing, sections loop and report (a fresh local
dict) perform no writes; the report is the one the pure pipeline computes.
Returns the final heap, the address of the returned record, and the
report. -/
def heap_validate (h0 : Heap) (data : List (String × JValue)) (fn : String) :
    Heap × Nat × Report :=
  let c := storeJ h0 (.obj data)
  let i := storeJ c.1 (.str (generate_doc_id fn))
  let h3 := hwriteDict i.1 c.2 "doc_id" i.2
  let trimmed := trim_obj (setKey data "doc_id" (.str (generate_doc_id fn)))
  let t := storeJ h3 (.obj trimmed)
  let h5 :=
    match check_required REQUIRED_FIELDS trimmed with
    | some _ => t.1
    | none =>
        match getKey trimmed "pbac_meeting_date" with
        | some v =>
            if truthy v then
              match parse_date v with
              | some d =>
                  let n := storeJ t.1 (.str (formatDate d))
                  hwriteDict n.1 t.2 "pbac_meeting_date" n.2
              | none =>
                  let n := storeJ t.1 .null
                  hwriteDict n.1 t.2 "pbac_meeting_date" n.2
            else t.1
        | none => t.1
  (h5, t.2, (validate_and_clean_json data fn).2)

/-! ## Helper lemmas -/

/-- A list that `dropWhile` leaves unchanged does not start with a
satisfying element. -/
theorem head_not_of_dropWhile_eq_self {α : Type} {p : α → Bool} {t : List α}
    (h : t.dropWhile p = t) : ∀ hl : t ≠ [], p (t.head hl) = false := by
  intro hl
  cases t with
  | nil => exact absurd rfl hl
  | cons a t' =>
    by_cases hpa : p a = true
    · exfalso
      rw [List.dropWhile_cons, if_pos hpa] at h
      have hle := ((List.dropWhile_suffix (l := t') p).sublist).length_le
      rw [h] at hle
      simp at hle
    · simp only [List.head_cons]
      exact Bool.not_eq_true _ ▸ hpa

/-- `dropWhile` fixpoints are inherited by prefixes. -/
theorem dropWhile_eq_self_mono {α : Type} {p : α → Bool} {m t : List α}
    (hm : m.dropWhile p = m) (ht : List.IsPrefix t m) : t.dropWhile p = t := by
  cases t with
  | nil => rfl
  | cons a t' =>
    obtain ⟨u, hu⟩ := ht
    subst hu
    have ha := head_not_of_dropWhile_eq_self hm (by simp)
    simp only [List.cons_append, List.head_cons] at ha
    rw [List.dropWhile_cons, if_neg (by simp [ha])]

/-- Splitting a list at the point where `rdropWhile` cuts it. -/
theorem rdropWhile_append_rtakeWhile {α : Type} (p : α → Bool) (l : List α) :
    l.rdropWhile p ++ l.rtakeWhile p = l := by
  rw [List.rdropWhile, List.rtakeWhile, ← List.reverse_append, List.takeWhile_append_dropWhile,
    List.reverse_reverse]

/-- `str.strip()` is idempotent. -/
theorem py_strip_idem (s : String) : py_strip (py_strip s) = py_strip s := by
  have hm : (s.data.dropWhile py_isspace).dropWhile py_isspace = s.data.dropWhile py_isspace :=
    List.dropWhile_idempotent _ _
  have h1 : ((s.data.dropWhile py_isspace).rdropWhile py_isspace).dropWhile py_isspace =
      (s.data.dropWhile py_isspace).rdropWhile py_isspace :=
    dropWhile_eq_self_mono hm (List.rdropWhile_prefix _ _)
  simp only [py_strip, h1]
  exact congrArg String.mk (List.rdropWhile_idempotent _ _)

/-- The characters `strip` removes are whitespace, and it removes them only
from the two ends. -/
theorem py_strip_decomp (s : String) :
    ∃ pre suf, (∀ c ∈ pre, py_isspace c = true) ∧ (∀ c ∈ suf, py_isspace c = true) ∧
      s.data = pre ++ (py_strip s).data ++ suf := by
  refine ⟨s.data.takeWhile py_isspace, (s.data.dropWhile py_isspace).rtakeWhile py_isspace,
    fun c hc => List.mem_takeWhile_imp hc, fun c hc => List.mem_rtakeWhile_imp hc, ?_⟩
  have hps : (py_strip s).data = (s.data.dropWhile py_isspace).rdropWhile py_isspace := rfl
  rw [hps, List.append_assoc, rdropWhile_append_rtakeWhile,
    List.takeWhile_append_dropWhile]

/-- A stripped string neither starts nor ends with whitespace. -/
theorem py_strip_boundary (s : String) (h : (py_strip s).data ≠ []) :
    py_isspace ((py_strip s).data.head h) = false ∧
    py_isspace ((py_strip s).data.getLast h) = false := by
  constructor
  · exact head_not_of_dropWhile_eq_self
      (dropWhile_eq_self_mono (List.dropWhile_idempotent _ _)
        (List.rdropWhile_prefix _ _)) h
  · have := List.rdropWhile_last_not py_isspace (s.data.dropWhile py_isspace) h
    simpa using this

/-- The dict comprehension of `trim_all_strings` is a `map` keeping keys. -/
theorem trim_obj_eq_map (fs : List (String × JValue)) :
    trim_obj fs = fs.map fun kv => (kv.1, trim_all_strings kv.2) := by
  induction fs with
  | nil => rfl
  | cons kv rest ih =>
    obtain ⟨k, v⟩ := kv
    simp [trim_obj, ih]

/-- The list comprehension of `trim_all_strings` is a `map`. -/
theorem trim_list_eq_map (xs : List JValue) : trim_list xs = xs.map trim_all_strings := by
  induction xs with
  | nil => rfl
  | cons x rest ih => simp [trim_list, ih]

mutual

/-- Cleaning an already-cleaned value changes nothing (value level). -/
theorem trim_idem_val : ∀ v, trim_all_strings (trim_all_strings v) = trim_all_strings v
  | .null => rfl
  | .bool _ => rfl
  | .num _ => rfl
  | .str s => congrArg JValue.str (py_strip_idem s)
  | .arr xs => congrArg JValue.arr (trim_idem_list xs)
  | .obj fs => congrArg JValue.obj (trim_idem_obj fs)

/-- Cleaning an already-cleaned list of values changes nothing. -/
theorem trim_idem_list : ∀ xs, trim_list (trim_list xs) = trim_list xs
  | [] => rfl
  | x :: xs => by
      simp only [trim_list]
      rw [trim_idem_val x, trim_idem_list xs]

/-- Cleaning an already-cleaned dict changes nothing. -/
theorem trim_idem_obj : ∀ fs, trim_obj (trim_obj fs) = trim_obj fs
  | [] => rfl
  | (k, v) :: fs => by
      simp only [trim_obj]
      rw [trim_idem_val v, trim_idem_obj fs]

end

/-- Every output of `hexChar` is a lower-case hex digit. -/
theorem hexChar_hex (n : Nat) : isHexLower (hexChar n) = true := by
  unfold hexChar
  split <;> decide

/-- A hex-rendered word has eight characters. -/
theorem toHex8_length (x : Nat) : (toHex8 x).length = 8 := rfl

/-- A hex-rendered word consists of hex digits. -/
theorem toHex8_all (x : Nat) : (toHex8 x).data.all isHexLower = true := by
  simp [toHex8, hexChar_hex]

/-- The digest has 64 characters. -/
theorem sha256_hexdigest_length (msg : List Nat) : (sha256_hexdigest msg).length = 64 := by
  simp [sha256_hexdigest, String.length_append, toHex8_length]

/-- The digest consists of lower-case hex digits. -/
theorem sha256_hexdigest_hex (msg : List Nat) :
    (sha256_hexdigest msg).data.all isHexLower = true := by
  simp [sha256_hexdigest, String.data_append, List.all_append, toHex8_all]

/-- Reading back the key just assigned. -/
theorem getKey_setKey_self (fs : List (String × JValue)) (k : String) (v : JValue) :
    getKey (setKey fs k v) k = some v := by
  induction fs with
  | nil => simp [setKey, getKey]
  | cons kv rest ih =>
    obtain ⟨k', v'⟩ := kv
    by_cases h : (k' == k) = true
    · simp [setKey, getKey, h]
    · simp [setKey, getKey, h, ih]

/-- Assignment leaves other keys untouched. -/
theorem getKey_setKey_ne (fs : List (String × JValue)) (k k' : String) (v : JValue)
    (h : k' ≠ k) : getKey (setKey fs k v) k' = getKey fs k' := by
  induction fs with
  | nil =>
    have hk : (k == k') = false := by
      simp only [beq_eq_false_iff_ne]
      exact fun hh => h hh.symm
    simp [setKey, getKey, hk]
  | cons kv rest ih =>
    obtain ⟨k0, v0⟩ := kv
    by_cases h0 : (k0 == k) = true
    · have hk : (k == k') = false := by
        simp only [beq_eq_false_iff_ne]
        exact fun hh => h hh.symm
      have hk0 : (k0 == k') = false := by
        simp only [beq_eq_false_iff_ne]
        intro hh
        exact h (hh ▸ beq_iff_eq.mp h0)
      simp [setKey, getKey, h0, hk, hk0]
    · simp [setKey, getKey, h0, ih]

/-- The date stage never touches any key other than `pbac_meeting_date`. -/
theorem getKey_normalize_date_ne (cd : List (String × JValue)) (k : String)
    (h : k ≠ "pbac_meeting_date") :
    getKey (normalize_date cd).1 k = getKey cd k := by
  unfold normalize_date
  split
  · split
    · split
      · simp [getKey_setKey_ne _ _ _ _ h]
      · simp [getKey_setKey_ne _ _ _ _ h]
    · rfl
  · rfl

/-- The required-field loop on the configured field list, unfolded. -/
theorem check_required_unfold (cd : List (String × JValue)) :
    check_required REQUIRED_FIELDS cd =
      if optTruthy (getKey cd "title") then
        (if optTruthy (getKey cd "sections") then none else some "sections")
      else some "title" := rfl

/-- Passing the required-field gate means both fields are truthy. -/
theorem required_none_iff (cd : List (String × JValue)) :
    check_required REQUIRED_FIELDS cd = none ↔
      optTruthy (getKey cd "title") = true ∧ optTruthy (getKey cd "sections") = true := by
  rw [check_required_unfold]
  by_cases h1 : optTruthy (getKey cd "title") = true <;>
    by_cases h2 : optTruthy (getKey cd "sections") = true <;>
      simp [h1, h2]

/-- The sections stage appends either no error or exactly the not-a-list
error. -/
theorem check_sections_value_errors (o : Option JValue) :
    (check_sections_value o).2 = [] ∨
    (check_sections_value o).2 = ["\x27sections\x27 field is not a list."] := by
  unfold check_sections_value
  split
  · exact Or.inl rfl
  · exact Or.inr rfl

/-- Closed form of the final status bookkeeping. -/
theorem assemble_status_spec (w e : List String) :
    assemble_status w e =
      if e = [] then (if w = [] then "success" else "success_with_warnings") else "error" := by
  rcases e with _ | ⟨e0, es⟩ <;> rcases w with _ | ⟨w0, ws⟩ <;> simp [assemble_status]

/-- With no errors the final status is never `error`. -/
theorem assemble_status_nil_ne_error (w : List String) : assemble_status w [] ≠ "error" := by
  rw [assemble_status_spec]
  by_cases hW : w = [] <;> simp [hW]

/-- The shape of the result once the required-field gate has passed. -/
theorem validate_none_eq (data : List (String × JValue)) (fn : String)
    (h : check_required REQUIRED_FIELDS
      (trim_obj (setKey data "doc_id" (.str (generate_doc_id fn)))) = none) :
    validate_and_clean_json data fn =
      (.obj (normalize_date (trim_obj (setKey data "doc_id"
          (.str (generate_doc_id fn))))).1,
       ⟨assemble_status
          ((normalize_date (trim_obj (setKey data "doc_id" (.str (generate_doc_id fn))))).2 ++
           (check_sections_value (getKey (normalize_date (trim_obj (setKey data "doc_id"
             (.str (generate_doc_id fn))))).1 "sections")).1)
          (check_sections_value (getKey (normalize_date (trim_obj (setKey data "doc_id"
            (.str (generate_doc_id fn))))).1 "sections")).2,
        (normalize_date (trim_obj (setKey data "doc_id" (.str (generate_doc_id fn))))).2 ++
          (check_sections_value (getKey (normalize_date (trim_obj (setKey data "doc_id"
            (.str (generate_doc_id fn))))).1 "sections")).1,
        (check_sections_value (getKey (normalize_date (trim_obj (setKey data "doc_id"
          (.str (generate_doc_id fn))))).1 "sections")).2⟩) := by
  simp only [validate_and_clean_json, h]

/-- Warnings produced later in the sections loop stay in the result. -/
theorem check_sections_items_mem_tail (i : Nat) (x0 : JValue) (rest : List JValue)
    (m : String) (hm : m ∈ check_sections_items (i + 1) rest) :
    m ∈ check_sections_items i (x0 :: rest) := by
  cases x0 with
  | obj fs =>
    by_cases h : optTruthy (getKey fs "heading") = true
    · simpa [check_sections_items, h] using hm
    · simp only [check_sections_items, h, if_neg]
      exact List.mem_cons_of_mem _ hm
  | null => exact List.mem_cons_of_mem _ hm
  | bool b => exact List.mem_cons_of_mem _ hm
  | num n => exact List.mem_cons_of_mem _ hm
  | str s => exact List.mem_cons_of_mem _ hm
  | arr xs => exact List.mem_cons_of_mem _ hm

/-- A non-dict element at position `j` contributes its per-index warning. -/
theorem check_sections_items_mem_nonobj :
    ∀ (xs : List JValue) (i j : Nat) (x : JValue), xs.get? j = some x →
      (∀ fs, x ≠ .obj fs) →
      ("Item at index " ++ toString (i + j) ++ " in \x27sections\x27 is not a valid object.")
        ∈ check_sections_items i xs := by
  intro xs
  induction xs with
  | nil => intro i j x hx _; simp at hx
  | cons x0 rest ih =>
    intro i j x hx hne
    cases j with
    | zero =>
      have hx0 : x0 = x := by simpa using hx
      subst hx0
      cases x0 with
      | obj fs => exact absurd rfl (hne fs)
      | null => simp [check_sections_items]
      | bool b => simp [check_sections_items]
      | num n => simp [check_sections_items]
      | str s => simp [check_sections_items]
      | arr ys => simp [check_sections_items]
    | succ j' =>
      have hx' : rest.get? j' = some x := by simpa using hx
      have hmem := ih (i + 1) j' x hx' hne
      have harith : (i + 1) + j' = i + (j' + 1) := by omega
      rw [harith] at hmem
      exact check_sections_items_mem_tail i x0 rest _ hmem

/-- A dict element at position `j` without a truthy heading contributes its
per-index warning. -/
theorem check_sections_items_mem_noheading :
    ∀ (xs : List JValue) (i j : Nat) (fs : List (String × JValue)),
      xs.get? j = some (.obj fs) → optTruthy (getKey fs "heading") = false →
      ("Section at index " ++ toString (i + j) ++ " is missing a \x27heading\x27.")
        ∈ check_sections_items i xs := by
  intro xs
  induction xs with
  | nil => intro i j fs hx _; simp at hx
  | cons x0 rest ih =>
    intro i j fs hx hh
    cases j with
    | zero =>
      have hx0 : x0 = .obj fs := by simpa using hx
      subst hx0
      simp [check_sections_items, hh]
    | succ j' =>
      have hx' : rest.get? j' = some (.obj fs) := by simpa using hx
      have hmem := ih (i + 1) j' fs hx' hh
      have harith : (i + 1) + j' = i + (j' + 1) := by omega
      rw [harith] at hmem
      exact check_sections_items_mem_tail i x0 rest _ hmem

/-- Allocation preserves every existing address, bumps `next`, and returns
a fresh root. -/
theorem halloc_props (h : Heap) (o : HObj) :
    h.next ≤ (halloc h o).1.next ∧
    (∀ a, a < h.next → hlookup (halloc h o).1 a = hlookup h a) ∧
    h.next ≤ (halloc h o).2 ∧ (halloc h o).2 < (halloc h o).1.next := by
  refine ⟨by simp [halloc], ?_, by simp [halloc], by simp [halloc]⟩
  intro a ha
  have hne : (h.next == a) = false := beq_eq_false_iff_ne.mpr (Nat.ne_of_gt ha)
  simp [halloc, hlookup, memLookup, hne]

mutual

/-- Storing a value only allocates: old addresses keep their objects, and
the returned root is fresh relative to the starting heap. -/
theorem storeJ_frame : ∀ (h : Heap) (v : JValue),
    h.next ≤ (storeJ h v).1.next ∧
    (∀ a, a < h.next → hlookup (storeJ h v).1 a = hlookup h a) ∧
    h.next ≤ (storeJ h v).2 ∧ (storeJ h v).2 < (storeJ h v).1.next
  | h, .null => halloc_props h _
  | h, .bool b => halloc_props h _
  | h, .num n => halloc_props h _
  | h, .str s => halloc_props h _
  | h, .arr xs => by
      obtain ⟨hn, hf⟩ := storeJList_frame h xs
      obtain ⟨an, af, ar, al⟩ := halloc_props (storeJList h xs).1 (.hlist (storeJList h xs).2)
      simp only [storeJ]
      exact ⟨le_trans hn an, fun a ha => (af a (lt_of_lt_of_le ha hn)).trans (hf a ha),
        le_trans hn ar, al⟩
  | h, .obj fs => by
      obtain ⟨hn, hf⟩ := storeJObj_frame h fs
      obtain ⟨an, af, ar, al⟩ := halloc_props (storeJObj h fs).1 (.hdict (storeJObj h fs).2)
      simp only [storeJ]
      exact ⟨le_trans hn an, fun a ha => (af a (lt_of_lt_of_le ha hn)).trans (hf a ha),
        le_trans hn ar, al⟩

/-- Storing a list of values only allocates. -/
theorem storeJList_frame : ∀ (h : Heap) (xs : List JValue),
    h.next ≤ (storeJList h xs).1.next ∧
    (∀ a, a < h.next → hlookup (storeJList h xs).1 a = hlookup h a)
  | h, [] => ⟨le_refl _, fun _ _ => rfl⟩
  | h, x :: xs => by
      obtain ⟨hn1, hf1, _, _⟩ := storeJ_frame h x
      obtain ⟨hn2, hf2⟩ := storeJList_frame (storeJ h x).1 xs
      simp only [storeJList]
      exact ⟨le_trans hn1 hn2,
        fun a ha => (hf2 a (lt_of_lt_of_le ha hn1)).trans (hf1 a ha)⟩

/-- Storing dict fields only allocates. -/
theorem storeJObj_frame : ∀ (h : Heap) (fs : List (String × JValue)),
    h.next ≤ (storeJObj h fs).1.next ∧
    (∀ a, a < h.next → hlookup (storeJObj h fs).1 a = hlookup h a)
  | h, [] => ⟨le_refl _, fun _ _ => rfl⟩
  | h, (k, v) :: rest => by
      obtain ⟨hn1, hf1, _, _⟩ := storeJ_frame h v
      obtain ⟨hn2, hf2⟩ := storeJObj_frame (storeJ h v).1 rest
      simp only [storeJObj]
      exact ⟨le_trans hn1 hn2,
        fun a ha => (hf2 a (lt_of_lt_of_le ha hn1)).trans (hf1 a ha)⟩

end

/-- An in-place dict write touches only its target address. -/
theorem hwriteDict_frame (h : Heap) (b : Nat) (k : String) (va : Nat) (a : Nat)
    (hne : a ≠ b) : hlookup (hwriteDict h b k va) a = hlookup h a := by
  unfold hwriteDict
  split
  · have hba : (b == a) = false := beq_eq_false_iff_ne.mpr (fun hh => hne hh.symm)
    simp [hwrite, hlookup, memLookup, hba]
  · rfl

/-- An in-place dict write does not allocate. -/
theorem hwriteDict_next (h : Heap) (b : Nat) (k : String) (va : Nat) :
    (hwriteDict h b k va).next = h.next := by
  unfold hwriteDict
  split <;> rfl

/-- The whole pipeline writes only at addresses allocated after entry:
every address of the input heap keeps its object. -/
theorem heap_validate_frame (h0 : Heap) (data : List (String × JValue)) (fn : String) :
    ∀ a, a < h0.next → hlookup (heap_validate h0 data fn).1 a = hlookup h0 a := by
  intro a ha
  obtain ⟨hn1, hf1, hr1, hl1⟩ := storeJ_frame h0 (JValue.obj data)
  obtain ⟨hn2, hf2, _, _⟩ :=
    storeJ_frame (storeJ h0 (JValue.obj data)).1 (JValue.str (generate_doc_id fn))
  have hstep3 : hlookup (hwriteDict
      (storeJ (storeJ h0 (JValue.obj data)).1 (JValue.str (generate_doc_id fn))).1
      (storeJ h0 (JValue.obj data)).2 "doc_id"
      (storeJ (storeJ h0 (JValue.obj data)).1 (JValue.str (generate_doc_id fn))).2) a =
      hlookup h0 a := by
    rw [hwriteDict_frame _ _ _ _ a (by omega)]
    rw [hf2 a (by omega), hf1 a ha]
  have h3next : (hwriteDict
      (storeJ (storeJ h0 (JValue.obj data)).1 (JValue.str (generate_doc_id fn))).1
      (storeJ h0 (JValue.obj data)).2 "doc_id"
      (storeJ (storeJ h0 (JValue.obj data)).1 (JValue.str (generate_doc_id fn))).2).next =
      (storeJ (storeJ h0 (JValue.obj data)).1 (JValue.str (generate_doc_id fn))).1.next :=
    hwriteDict_next _ _ _ _
  obtain ⟨hn4, hf4, hr4, hl4⟩ := storeJ_frame (hwriteDict
      (storeJ (storeJ h0 (JValue.obj data)).1 (JValue.str (generate_doc_id fn))).1
      (storeJ h0 (JValue.obj data)).2 "doc_id"
      (storeJ (storeJ h0 (JValue.obj data)).1 (JValue.str (generate_doc_id fn))).2)
    (JValue.obj (trim_obj (setKey data "doc_id" (JValue.str (generate_doc_id fn)))))
  have hstep4 : ∀ a, a < h0.next → hlookup (storeJ (hwriteDict
      (storeJ (storeJ h0 (JValue.obj data)).1 (JValue.str (generate_doc_id fn))).1
      (storeJ h0 (JValue.obj data)).2 "doc_id"
      (storeJ (storeJ h0 (JValue.obj data)).1 (JValue.str (generate_doc_id fn))).2)
      (JValue.obj (trim_obj (setKey data "doc_id" (JValue.str (generate_doc_id fn)))))).1 a =
      hlookup h0 a := by
    intro a' ha'
    rw [hf4 a' (by omega)]
    rw [hwriteDict_frame _ _ _ _ a' (by omega)]
    rw [hf2 a' (by omega), hf1 a' ha']
  simp only [heap_validate]
  split
  · exact hstep4 a ha
  · split
    · split
      · split
        · obtain ⟨hn5, hf5, _, _⟩ := storeJ_frame (storeJ (hwriteDict
            (storeJ (storeJ h0 (JValue.obj data)).1 (JValue.str (generate_doc_id fn))).1
            (storeJ h0 (JValue.obj data)).2 "doc_id"
            (storeJ (storeJ h0 (JValue.obj data)).1 (JValue.str (generate_doc_id fn))).2)
            (JValue.obj (trim_obj (setKey data "doc_id"
              (JValue.str (generate_doc_id fn)))))).1 (JValue.str (formatDate _))
          rw [hwriteDict_frame _ _ _ _ a (by omega)]
          rw [hf5 a (by omega)]
          exact hstep4 a ha
        · obtain ⟨hn5, hf5, _, _⟩ := storeJ_frame (storeJ (hwriteDict
            (storeJ (storeJ h0 (JValue.obj data)).1 (JValue.str (generate_doc_id fn))).1
            (storeJ h0 (JValue.obj data)).2 "doc_id"
            (storeJ (storeJ h0 (JValue.obj data)).1 (JValue.str (generate_doc_id fn))).2)
            (JValue.obj (trim_obj (setKey data "doc_id"
              (JValue.str (generate_doc_id fn)))))).1 JValue.null
          rw [hwriteDict_frame _ _ _ _ a (by omega)]
          rw [hf5 a (by omega)]
          exact hstep4 a ha
      · exact hstep4 a ha
    · exact hstep4 a ha

/-- A successful lookup comes from an entry of the heap. -/
theorem memLookup_mem : ∀ (mem : List (Nat × HObj)) (a : Nat) (o : HObj),
    memLookup mem a = some o → (a, o) ∈ mem := by
  intro mem
  induction mem with
  | nil => intro a o h; simp [memLookup] at h
  | cons e rest ih =>
    intro a o h
    obtain ⟨b, o'⟩ := e
    by_cases hba : (b == a) = true
    · simp only [memLookup, hba, if_true] at h
      have hb : b = a := beq_iff_eq.mp hba
      have ho : o' = o := by simpa using h
      subst hb
      subst ho
      exact List.mem_cons_self _ _
    · simp only [memLookup, hba, if_false] at h
      exact List.mem_cons_of_mem _ (ih a o h)

/-- Element readers that agree on the elements read the same list. -/
theorem readList_congr (f g : Nat → Option JValue) (as : List Nat)
    (h : ∀ a ∈ as, f a = g a) : readList f as = readList g as := by
  induction as with
  | nil => rfl
  | cons a as ih =>
    simp only [readList, h a (List.mem_cons_self a as),
      ih fun b hb => h b (List.mem_cons_of_mem _ hb)]

/-- Element readers that agree on the field values read the same dict. -/
theorem readObj_congr (f g : Nat → Option JValue) (fs : List (String × Nat))
    (h : ∀ kv ∈ fs, f kv.2 = g kv.2) : readObj f fs = readObj g fs := by
  induction fs with
  | nil => rfl
  | cons kv rest ih =>
    obtain ⟨k, a⟩ := kv
    simp only [readObj, h (k, a) (List.mem_cons_self _ _),
      ih fun b hb => h b (List.mem_cons_of_mem _ hb)]

/-- On a closed heap, a heap that agrees on all addresses below `next`
yields the same readbacks there, at every fuel. -/
theorem readJ_frame_congr (h h' : Heap) (hc : Heap.closed h)
    (hf : ∀ a, a < h.next → hlookup h' a = hlookup h a) :
    ∀ fuel a, a < h.next → readJ fuel h' a = readJ fuel h a := by
  intro fuel
  induction fuel with
  | zero => intro a _; rfl
  | succ fuel ih =>
    intro a ha
    have hl : hlookup h' a = hlookup h a := hf a ha
    simp only [readJ, hl]
    cases hm : hlookup h a with
    | none => rfl
    | some o =>
      cases o with
      | hnull => rfl
      | hbool b => rfl
      | hnum n => rfl
      | hstr s => rfl
      | hlist as =>
        have hmem := memLookup_mem h.mem a _ hm
        have hsub := (hc _ hmem).2
        have hcongr : readList (readJ fuel h') as = readList (readJ fuel h) as :=
          readList_congr _ _ as fun b hb =>
            ih b (hsub b (by simpa [addrsOf] using hb))
        exact congrArg (Option.map JValue.arr) hcongr
      | hdict fs =>
        have hmem := memLookup_mem h.mem a _ hm
        have hsub := (hc _ hmem).2
        have hcongr : readObj (readJ fuel h') fs = readObj (readJ fuel h) fs :=
          readObj_congr _ _ fs fun kv hkv =>
            ih kv.2 (hsub kv.2 (by
              simp only [addrsOf, List.mem_map]
              exact ⟨kv, hkv, rfl⟩))
        exact congrArg (Option.map JValue.obj) hcongr

/-! ## Claim theorems -/

/-- Claim C1: the report status is `success` iff warnings and errors are
both empty, `success_with_warnings` iff errors are empty and warnings are
not, and whenever errors are non-empty the status is `error`. -/
theorem claim_C1_status_invariants (data : List (String × JValue)) (fn : String) :
    ((validate_and_clean_json data fn).2.status = "success" ↔
      (validate_and_clean_json data fn).2.warnings = [] ∧
      (validate_and_clean_json data fn).2.errors = []) ∧
    ((validate_and_clean_json data fn).2.status = "success_with_warnings" ↔
      (validate_and_clean_json data fn).2.errors = [] ∧
      (validate_and_clean_json data fn).2.warnings ≠ []) ∧
    ((validate_and_clean_json data fn).2.errors ≠ [] →
      (validate_and_clean_json data fn).2.status = "error") := by
  have hco : ¬(("error" : String) = "success") := by decide
  have hcw : ¬(("error" : String) = "success_with_warnings") := by decide
  have hcs : ¬(("success_with_warnings" : String) = "success") := by decide
  have hcs' : ¬(("success" : String) = "success_with_warnings") := by decide
  simp only [validate_and_clean_json]
  split
  · simp [hco, hcw]
  · rw [assemble_status_spec]
    rcases check_sections_value_errors
        (getKey (normalize_date (trim_obj (setKey data "doc_id"
          (.str (generate_doc_id fn))))).1 "sections") with hE | hE <;>
      rw [hE]
    · by_cases hW : (normalize_date (trim_obj (setKey data "doc_id"
          (.str (generate_doc_id fn))))).2 ++
          (check_sections_value (getKey (normalize_date (trim_obj (setKey data "doc_id"
            (.str (generate_doc_id fn))))).1 "sections")).1 = [] <;>
        simp [hW, hE, hcs, hcs']
    · simp [hE, hco, hcw]

/-- Witness for C1 at concrete records: a fully valid record is `success`;
one with an unparseable date is `success_with_warnings`. -/
theorem claim_C1_witness :
    (validate_and_clean_json
        [("title", .str "t"), ("sections", .arr [.obj [("heading", .str "h")]])]
        "a.pdf").2.status = "success" ∧
    (validate_and_clean_json
        [("title", .str "t"), ("sections", .arr [.obj [("heading", .str "h")]]),
         ("pbac_meeting_date", .str "nope")] "a.pdf").2.status = "success_with_warnings" :=
  ⟨(claim_C1_status_invariants
      [("title", .str "t"), ("sections", .arr [.obj [("heading", .str "h")]])]
      "a.pdf").1.mpr ⟨by decide, by decide⟩,
   (claim_C1_status_invariants
      [("title", .str "t"), ("sections", .arr [.obj [("heading", .str "h")]]),
       ("pbac_meeting_date", .str "nope")] "a.pdf").2.1.mpr ⟨by decide, by decide⟩⟩

/-- Claim C10: the errors list of every report has at most one element: the
required-field gate returns with exactly one error, and otherwise only the
single sections-not-a-list error is possible. -/
theorem claim_C10_at_most_one_error (data : List (String × JValue)) (fn : String) :
    (validate_and_clean_json data fn).2.errors.length ≤ 1 := by
  have hsec : ∀ o : Option JValue, ((check_sections_value o).2).length ≤ 1 := by
    intro o
    rcases check_sections_value_errors o with h | h <;> simp [h]
  simp only [validate_and_clean_json]
  split
  · simp
  · simpa using hsec _

/-- Claim C2 (amended): the gate returns early at the first required field
whose cleaned value is falsy (absent, null, empty — or `False`/`0`), with
status `error` and exactly one error naming that field, and the returned
record reflects only identity assignment and string trimming; every
absent/null/empty field is indeed falsy. -/
theorem claim_C2_required_field_early_return (data : List (String × JValue)) (fn : String) :
    (optTruthy (getKey (trim_obj (setKey data "doc_id" (.str (generate_doc_id fn))))
        "title") = false →
      validate_and_clean_json data fn =
        (.obj (trim_obj (setKey data "doc_id" (.str (generate_doc_id fn)))),
         ⟨"error", [], ["Missing or empty required field: \x27title\x27"]⟩)) ∧
    (optTruthy (getKey (trim_obj (setKey data "doc_id" (.str (generate_doc_id fn))))
        "title") = true →
     optTruthy (getKey (trim_obj (setKey data "doc_id" (.str (generate_doc_id fn))))
        "sections") = false →
      validate_and_clean_json data fn =
        (.obj (trim_obj (setKey data "doc_id" (.str (generate_doc_id fn)))),
         ⟨"error", [], ["Missing or empty required field: \x27sections\x27"]⟩)) ∧
    (∀ o, absentNullOrEmpty o = true → optTruthy o = false) := by
  refine ⟨?_, ?_, ?_⟩
  · intro h
    simp only [validate_and_clean_json, check_required_unfold, h]
    rfl
  · intro h1 h2
    simp only [validate_and_clean_json, check_required_unfold, h1, h2]
    rfl
  · intro o ho
    cases o with
    | none => rfl
    | some v =>
      cases v with
      | null => rfl
      | bool b => simp [absentNullOrEmpty] at ho
      | num n => simp [absentNullOrEmpty] at ho
      | str s =>
        simp [absentNullOrEmpty] at ho
        simp [optTruthy, truthy, ho]
      | arr xs =>
        simp [absentNullOrEmpty] at ho
        simp [optTruthy, truthy, ho]
      | obj fs =>
        simp [absentNullOrEmpty] at ho
        simp [optTruthy, truthy, ho]

/-- Witness for C2 at a concrete record: a title consisting only of
whitespace trims to empty, so the pipeline stops with the title error and
returns the record after identity assignment and trimming only. -/
theorem claim_C2_witness :
    validate_and_clean_json [("title", .str "   ")] "a.pdf" =
      (.obj (trim_obj (setKey [("title", .str "   ")] "doc_id"
          (.str (generate_doc_id "a.pdf")))),
       ⟨"error", [], ["Missing or empty required field: \x27title\x27"]⟩) :=
  (claim_C2_required_field_early_return [("title", .str "   ")] "a.pdf").1 (by decide)

/-- Counterexample to C2 as frozen: with `title = False` (falsy but neither
absent, null, nor empty) and `sections = None`, the first — indeed only —
absent/null/empty required field is `sections`, yet the error names
`title`. -/
theorem claim_C2_counterexample :
    absentNullOrEmpty (getKey (trim_obj (setKey
        [("title", JValue.bool false), ("sections", JValue.null)] "doc_id"
        (.str (generate_doc_id "a.pdf")))) "title") = false ∧
    absentNullOrEmpty (getKey (trim_obj (setKey
        [("title", JValue.bool false), ("sections", JValue.null)] "doc_id"
        (.str (generate_doc_id "a.pdf")))) "sections") = true ∧
    (validate_and_clean_json [("title", JValue.bool false), ("sections", JValue.null)]
        "a.pdf").2.errors = ["Missing or empty required field: \x27title\x27"] := by
  decide

/-- Claim C9 (amended): for every mapping-rooted input the pipeline returns
normally whatever the types of the top-level fields, and a falsy required
field is reported as data — status `error` with the missing-required-field
message; a non-mapping root instead raises `TypeError` at the `doc_id`
assignment. -/
theorem claim_C9_no_exception_on_mapping (fields : List (String × JValue)) (fn : String) :
    (validate_and_clean_json_dyn (.obj fields) fn).isOk = true ∧
    (∀ f, check_required REQUIRED_FIELDS
        (trim_obj (setKey fields "doc_id" (.str (generate_doc_id fn)))) = some f →
      (validate_and_clean_json fields fn).2 =
        ⟨"error", [], ["Missing or empty required field: \x27" ++ f ++ "\x27"]⟩) := by
  refine ⟨rfl, ?_⟩
  intro f hf
  simp only [validate_and_clean_json, hf]

/-- Witness for C9: the empty mapping returns normally with the title
error. -/
theorem claim_C9_witness :
    (validate_and_clean_json_dyn (.obj []) "input.json").isOk = true ∧
    (validate_and_clean_json [] "input.json").2 =
      ⟨"error", [], ["Missing or empty required field: \x27title\x27"]⟩ := by
  refine ⟨(claim_C9_no_exception_on_mapping [] "input.json").1, ?_⟩
  have h := (claim_C9_no_exception_on_mapping [] "input.json").2 "title" (by decide)
  exact h.trans (by decide)

/-- Counterexample to C9 as frozen: on a non-mapping root (here a JSON
array) the code does not return a report at all — line 63 raises
`TypeError`. -/
theorem claim_C9_counterexample :
    (validate_and_clean_json_dyn (.arr []) "input.json").isOk = false := rfl

/-- Claim C4: past the required-field gate, a non-list `sections` value
yields exactly one sections error with status `error` while the cleaned
record is still returned; a list value contributes no error and never makes
the status `error` — the stage turns an empty list into a warning, and each
non-dict element and each dict element without a non-empty heading into a
per-index warning. -/
theorem claim_C4_section_integrity (data : List (String × JValue)) (fn : String) :
    (check_required REQUIRED_FIELDS
        (trim_obj (setKey data "doc_id" (.str (generate_doc_id fn)))) = none →
      ((∀ v, getKey (trim_obj (setKey data "doc_id" (.str (generate_doc_id fn))))
            "sections" = some v → (∀ xs, v ≠ .arr xs) →
          (validate_and_clean_json data fn).2.errors =
            ["\x27sections\x27 field is not a list."] ∧
          (validate_and_clean_json data fn).2.status = "error" ∧
          (validate_and_clean_json data fn).1 =
            .obj (normalize_date (trim_obj (setKey data "doc_id"
              (.str (generate_doc_id fn))))).1) ∧
       (∀ xs, getKey (trim_obj (setKey data "doc_id" (.str (generate_doc_id fn))))
            "sections" = some (.arr xs) →
          (validate_and_clean_json data fn).2.errors = [] ∧
          (validate_and_clean_json data fn).2.status ≠ "error" ∧
          (∀ j x, xs.get? j = some x → (∀ fs, x ≠ .obj fs) →
            ("Item at index " ++ toString j ++ " in \x27sections\x27 is not a valid object.")
              ∈ (validate_and_clean_json data fn).2.warnings) ∧
          (∀ j fs, xs.get? j = some (.obj fs) → optTruthy (getKey fs "heading") = false →
            ("Section at index " ++ toString j ++ " is missing a \x27heading\x27.")
              ∈ (validate_and_clean_json data fn).2.warnings)))) ∧
    check_sections_value (some (.arr [])) = (["\x27sections\x27 array is empty."], []) := by
  constructor
  · intro hreq
    have hE := validate_none_eq data fn hreq
    have hpres : getKey (normalize_date (trim_obj (setKey data "doc_id"
        (.str (generate_doc_id fn))))).1 "sections" =
        getKey (trim_obj (setKey data "doc_id" (.str (generate_doc_id fn)))) "sections" :=
      getKey_normalize_date_ne _ "sections" (by decide)
    constructor
    · intro v hv hvne
      have hsv : check_sections_value (getKey (normalize_date (trim_obj (setKey data "doc_id"
          (.str (generate_doc_id fn))))).1 "sections") =
          ([], ["\x27sections\x27 field is not a list."]) := by
        rw [hpres, hv]
        cases v with
        | arr xs => exact absurd rfl (hvne xs)
        | null => rfl
        | bool b => rfl
        | num n => rfl
        | str s => rfl
        | obj fs => rfl
      rw [hE]
      refine ⟨by simp [hsv], ?_, rfl⟩
      simp [hsv, assemble_status_spec]
    · intro xs hxs
      have hsv : check_sections_value (getKey (normalize_date (trim_obj (setKey data "doc_id"
          (.str (generate_doc_id fn))))).1 "sections") =
          ((if xs.isEmpty then ["\x27sections\x27 array is empty."] else []) ++
            check_sections_items 0 xs, []) := by
        rw [hpres, hxs]
        rfl
      rw [hE]
      refine ⟨by simp [hsv], ?_, ?_, ?_⟩
      · simp only [hsv]
        exact assemble_status_nil_ne_error _
      · intro j x hjx hne
        have hm := check_sections_items_mem_nonobj xs 0 j x hjx hne
        rw [Nat.zero_add] at hm
        simp only [hsv]
        exact List.mem_append_right _ (List.mem_append_right _ hm)
      · intro j fs hjf hh
        have hm := check_sections_items_mem_noheading xs 0 j fs hjf hh
        rw [Nat.zero_add] at hm
        simp only [hsv]
        exact List.mem_append_right _ (List.mem_append_right _ hm)
  · rfl

/-- Witness for C4 at a concrete record: `sections = "not a list"` gives the
single sections error with status `error`, while a list with a non-dict
element and a heading-less dict collects the two per-index warnings. -/
theorem claim_C4_witness :
    (validate_and_clean_json
        [("title", .str "t"), ("sections", .str "not a list")] "a.pdf").2.errors =
      ["\x27sections\x27 field is not a list."] ∧
    ("Item at index 0 in \x27sections\x27 is not a valid object.") ∈
      (validate_and_clean_json
        [("title", .str "t"), ("sections", .arr [.num 3, .obj []])] "a.pdf").2.warnings ∧
    ("Section at index 1 is missing a \x27heading\x27.") ∈
      (validate_and_clean_json
        [("title", .str "t"), ("sections", .arr [.num 3, .obj []])] "a.pdf").2.warnings := by
  refine ⟨?_, ?_, ?_⟩
  · exact (((claim_C4_section_integrity
      [("title", .str "t"), ("sections", .str "not a list")] "a.pdf").1 (by decide)).1
      (.str "not a list") (by rfl) (fun xs h => by cases h)).1
  · exact (((claim_C4_section_integrity
      [("title", .str "t"), ("sections", .arr [.num 3, .obj []])] "a.pdf").1 (by decide)).2
      [.num 3, .obj []] (by rfl)).2.2.1 0 (.num 3) (by rfl)
      (fun fs h => by cases h)
  · exact (((claim_C4_section_integrity
      [("title", .str "t"), ("sections", .arr [.num 3, .obj []])] "a.pdf").1 (by decide)).2
      [.num 3, .obj []] (by rfl)).2.2.2 1 [] (by rfl) (by decide)

/-- Claim C8: the pipeline never mutates its input record.  In the explicit
heap model every write of `validate_and_clean_json` (the `doc_id` and date
assignments) targets addresses allocated after entry — the deep copy and the
trimmed rebuild are fresh graphs — so every address of the input heap keeps
its object, and the value read back from any input address after the call
is identical to its value before the call. -/
theorem claim_C8_input_not_mutated (h0 : Heap) (data : List (String × JValue)) (fn : String)
    (hclosed : Heap.closed h0) :
    (∀ a, a < h0.next → hlookup (heap_validate h0 data fn).1 a = hlookup h0 a) ∧
    (∀ fuel a, a < h0.next →
      readJ fuel (heap_validate h0 data fn).1 a = readJ fuel h0 a) :=
  ⟨heap_validate_frame h0 data fn,
   fun fuel a ha => readJ_frame_congr h0 _ hclosed (heap_validate_frame h0 data fn) fuel a ha⟩

/-- Witness for C8 at a concrete two-object heap: after the run, the input
root still holds its dict entry and still reads back as the original record,
untrimmed title included. -/
theorem claim_C8_witness :
    hlookup (heap_validate ⟨[(0, HObj.hdict [("title", 1)]), (1, HObj.hstr " t ")], 2⟩
        [("title", JValue.str " t ")] "a.pdf").1 0 = some (HObj.hdict [("title", 1)]) ∧
    readJ 2 (heap_validate ⟨[(0, HObj.hdict [("title", 1)]), (1, HObj.hstr " t ")], 2⟩
        [("title", JValue.str " t ")] "a.pdf").1 0 =
      some (JValue.obj [("title", JValue.str " t ")]) := by
  have h := claim_C8_input_not_mutated
    ⟨[(0, HObj.hdict [("title", 1)]), (1, HObj.hstr " t ")], 2⟩
    [("title", JValue.str " t ")] "a.pdf" (by unfold Heap.closed; decide)
  exact ⟨(h.1 0 (by decide)).trans rfl, (h.2 2 0 (by decide)).trans rfl⟩

/-- Claim C5 (amended): past the required-field gate, whenever the cleaned
`pbac_meeting_date` value is present and truthy (the code skips any falsy
value, so "non-null" alone is not enough), the Date Normalizer parses it:
on success the field is rewritten to `YYYY-MM-DD`, on failure a warning
describing the unparsed value is appended and the field is set to null, and
this stage never makes the status `error`. -/
theorem claim_C5_date_normalizer (data : List (String × JValue)) (fn : String) :
    check_required REQUIRED_FIELDS
        (trim_obj (setKey data "doc_id" (.str (generate_doc_id fn)))) = none →
    ∀ v, getKey (trim_obj (setKey data "doc_id" (.str (generate_doc_id fn))))
        "pbac_meeting_date" = some v → truthy v = true →
      ((∀ d, parse_date v = some d →
          (normalize_date (trim_obj (setKey data "doc_id"
            (.str (generate_doc_id fn))))).2 = [] ∧
          getKey (normalize_date (trim_obj (setKey data "doc_id"
            (.str (generate_doc_id fn))))).1 "pbac_meeting_date" =
            some (.str (formatDate d)) ∧
          (validate_and_clean_json data fn).1 =
            .obj (normalize_date (trim_obj (setKey data "doc_id"
              (.str (generate_doc_id fn))))).1) ∧
       (parse_date v = none →
          getKey (normalize_date (trim_obj (setKey data "doc_id"
            (.str (generate_doc_id fn))))).1 "pbac_meeting_date" = some .null ∧
          ("Could not parse date: \x27" ++ pyStr v ++ "\x27. Setting to null.") ∈
            (validate_and_clean_json data fn).2.warnings) ∧
       ((validate_and_clean_json data fn).2.status = "error" →
          ∀ xs, getKey (trim_obj (setKey data "doc_id" (.str (generate_doc_id fn))))
            "sections" ≠ some (.arr xs))) := by
  intro hreq v hv ht
  have hE := validate_none_eq data fn hreq
  refine ⟨?_, ?_, ?_⟩
  · intro d hd
    have hnd : normalize_date (trim_obj (setKey data "doc_id" (.str (generate_doc_id fn)))) =
        (setKey (trim_obj (setKey data "doc_id" (.str (generate_doc_id fn))))
          "pbac_meeting_date" (.str (formatDate d)), []) := by
      simp only [normalize_date, hv, ht, hd, if_true]
    refine ⟨by rw [hnd], ?_, by rw [hE]⟩
    rw [hnd]
    exact getKey_setKey_self _ _ _
  · intro hp
    have hnd : normalize_date (trim_obj (setKey data "doc_id" (.str (generate_doc_id fn)))) =
        (setKey (trim_obj (setKey data "doc_id" (.str (generate_doc_id fn))))
          "pbac_meeting_date" .null,
         ["Could not parse date: \x27" ++ pyStr v ++ "\x27. Setting to null."]) := by
      simp only [normalize_date, hv, ht, hp, if_true]
    refine ⟨?_, ?_⟩
    · rw [hnd]
      exact getKey_setKey_self _ _ _
    · rw [hE]
      rw [hnd]
      exact List.mem_append_left _ (List.mem_cons_self _ _)
  · intro hstat xs hxs
    have hpres : getKey (normalize_date (trim_obj (setKey data "doc_id"
        (.str (generate_doc_id fn))))).1 "sections" =
        getKey (trim_obj (setKey data "doc_id" (.str (generate_doc_id fn)))) "sections" :=
      getKey_normalize_date_ne _ "sections" (by decide)
    have hsv : check_sections_value (getKey (normalize_date (trim_obj (setKey data "doc_id"
        (.str (generate_doc_id fn))))).1 "sections") =
        ((if xs.isEmpty then ["\x27sections\x27 array is empty."] else []) ++
          check_sections_items 0 xs, []) := by
      rw [hpres, hxs]
      rfl
    rw [hE] at hstat
    simp only [hsv] at hstat
    exact assemble_status_nil_ne_error _ hstat

/-- Witness for C5 at the concrete dates of the specification:
`"March 3, 2021"` is rewritten to `"2021-03-03"`, and `"not a date"` is
nulled out with a warning. -/
theorem claim_C5_witness :
    getKey (normalize_date (trim_obj (setKey
        [("title", .str "t"), ("sections", .arr [.obj [("heading", .str "h")]]),
         ("pbac_meeting_date", .str "March 3, 2021")] "doc_id"
        (.str (generate_doc_id "a.pdf"))))).1 "pbac_meeting_date" =
      some (.str "2021-03-03") ∧
    ("Could not parse date: \x27not a date\x27. Setting to null.") ∈
      (validate_and_clean_json
        [("title", .str "t"), ("sections", .arr [.obj [("heading", .str "h")]]),
         ("pbac_meeting_date", .str "not a date")] "a.pdf").2.warnings := by
  constructor
  · have h := ((claim_C5_date_normalizer
      [("title", .str "t"), ("sections", .arr [.obj [("heading", .str "h")]]),
       ("pbac_meeting_date", .str "March 3, 2021")] "a.pdf")
      (by decide) (.str "March 3, 2021") (by rfl) (by decide)).1
      (2021, 3, 3) (by decide)
    exact h.2.1.trans (congrArg (fun s => some (JValue.str s)) (by decide))
  · have h := ((claim_C5_date_normalizer
      [("title", .str "t"), ("sections", .arr [.obj [("heading", .str "h")]]),
       ("pbac_meeting_date", .str "not a date")] "a.pdf")
      (by decide) (.str "not a date") (by rfl) (by decide)).2.1 (by decide)
    exact h.2

/-- Counterexample to C5 as frozen: a present, non-null but falsy date — the
empty string — is skipped entirely: parsing it would fail, yet no warning is
recorded and the field is not set to null (the whole record is returned
unchanged apart from identity assignment and trimming). -/
theorem claim_C5_counterexample :
    getKey (trim_obj (setKey
        [("title", .str "t"), ("sections", .arr [.obj [("heading", .str "h")]]),
         ("pbac_meeting_date", .str "")] "doc_id"
        (.str (generate_doc_id "a.pdf")))) "pbac_meeting_date" = some (.str "") ∧
    parse_date (.str "") = none ∧
    (validate_and_clean_json
        [("title", .str "t"), ("sections", .arr [.obj [("heading", .str "h")]]),
         ("pbac_meeting_date", .str "")] "a.pdf").2.warnings = [] ∧
    (validate_and_clean_json
        [("title", .str "t"), ("sections", .arr [.obj [("heading", .str "h")]]),
         ("pbac_meeting_date", .str "")] "a.pdf").1 =
      .obj (trim_obj (setKey
        [("title", .str "t"), ("sections", .arr [.obj [("heading", .str "h")]]),
         ("pbac_meeting_date", .str "")] "doc_id" (.str (generate_doc_id "a.pdf")))) :=
  ⟨rfl, rfl, rfl, rfl⟩

/-- Claim C3: `generate_doc_id` is a deterministic function of the base
filename only — two filenames with equal final path segments hash to the
same `doc_id` — and every string input, the empty string included, produces
a 64-character lower-case hexadecimal digest. -/
theorem claim_C3_doc_id_deterministic :
    (∀ f1 f2 : String, basename f1 = basename f2 → generate_doc_id f1 = generate_doc_id f2) ∧
    (∀ f : String, (generate_doc_id f).length = 64 ∧
      (generate_doc_id f).data.all isHexLower = true) := by
  constructor
  · intro f1 f2 h
    unfold generate_doc_id
    rw [h]
  · intro f
    exact ⟨sha256_hexdigest_length _, sha256_hexdigest_hex _⟩

/-- Witness for C3 at concrete inputs: two paths sharing the base name
`report.pdf` receive the same `doc_id`. -/
theorem claim_C3_witness :
    basename "docs/report.pdf" = basename "archive/report.pdf" ∧
    generate_doc_id "docs/report.pdf" = generate_doc_id "archive/report.pdf" :=
  ⟨by decide,
   claim_C3_doc_id_deterministic.1 "docs/report.pdf" "archive/report.pdf" (by decide)⟩

/-- Claim C6: `trim_all_strings` is total on JSON-shaped values and
preserves structure exactly — dicts are rebuilt with the same keys over
recursively cleaned values, lists element-wise in order with the same
length, string leaves lose exactly their leading and trailing whitespace,
and non-string leaves pass through unchanged. -/
theorem claim_C6_structural_cleaner :
    (∀ fields, trim_all_strings (.obj fields) =
        .obj (fields.map fun kv => (kv.1, trim_all_strings kv.2))) ∧
    (∀ xs, trim_all_strings (.arr xs) = .arr (xs.map trim_all_strings) ∧
        (xs.map trim_all_strings).length = xs.length) ∧
    (∀ s, trim_all_strings (.str s) = .str (py_strip s) ∧
        (∃ pre suf, (∀ c ∈ pre, py_isspace c = true) ∧ (∀ c ∈ suf, py_isspace c = true) ∧
          s.data = pre ++ (py_strip s).data ++ suf) ∧
        (∀ h : (py_strip s).data ≠ [],
          py_isspace ((py_strip s).data.head h) = false ∧
          py_isspace ((py_strip s).data.getLast h) = false)) ∧
    trim_all_strings .null = .null ∧
    (∀ b, trim_all_strings (.bool b) = .bool b) ∧
    (∀ n, trim_all_strings (.num n) = .num n) := by
  refine ⟨?_, ?_, ?_, rfl, fun _ => rfl, fun _ => rfl⟩
  · intro fields
    simp only [trim_all_strings]
    exact congrArg JValue.obj (trim_obj_eq_map fields)
  · intro xs
    constructor
    · simp only [trim_all_strings]
      exact congrArg JValue.arr (trim_list_eq_map xs)
    · simp
  · intro s
    exact ⟨rfl, py_strip_decomp s, py_strip_boundary s⟩

/-- Witness for C6 at a concrete string: the cleaned leaf of `"  a b "`
keeps its internal space and its boundary characters are not whitespace. -/
theorem claim_C6_witness :
    trim_all_strings (.str "  a b ") = .str "a b" ∧
    py_isspace ((py_strip "  a b ").data.head (by decide)) = false := by
  constructor
  · exact (claim_C6_structural_cleaner.2.2.1 "  a b ").1.trans
      (congrArg JValue.str (by decide))
  · exact ((claim_C6_structural_cleaner.2.2.1 "  a b ").2.2 (by decide)).1

/-- Claim C7: the Structural Cleaner is idempotent — cleaning an
already-cleaned value yields an identical value. -/
theorem claim_C7_trim_idempotent :
    ∀ v, trim_all_strings (trim_all_strings v) = trim_all_strings v :=
  trim_idem_val

end Validator
